import Mathlib

/-!
Shallow embedding of the ZXTapInspector decoding core
(`src/common.h`, `src/zxs_tap.h`, and the BASIC detokenizer `zxs_bas.h`)
together with theorems settling the specification claims about it.

Modelling conventions:
* C `BYTE` (unsigned char) is `Fin 256`.
* A sequential byte source (a `FILE*` in the C) is a `List BYTE`; a short
  `fread` is detected by comparing the requested count with the remaining
  list length, exactly as the C detects it through the return value.
* C `unsigned` arithmetic that can wrap is written with an explicit
  `% 2^32`.
* Out-of-range table indexing (undefined behaviour in C) is modelled by
  `List.get?`-style lookups returning `none`; an in-bounds execution of the
  decoder therefore yields `some`.
* The C `for`/`while` loops with a forward-moving cursor are modelled as
  fuel-indexed structural recursions; the wrappers instantiate the fuel
  with the buffer length, which is proved sufficient (the loops consume at
  least one byte per iteration).
* `fprintf` output is accumulated as a `List Char`; `malloc` is assumed to
  succeed (allocation failure is orthogonal to every claim).
-/

set_option maxRecDepth 8000

/-- C `BYTE` from `common.h`: an unsigned char. -/
abbrev BYTE := Fin 256

/-- `GET_LE_WORD(ptr, index)` from `common.h`:
`(ptr[index+1] << 8) | ptr[index]`, a little-endian 16-bit read.
On byte values the shift-or is plain `*256 +`. -/
def GET_LE_WORD (l : List BYTE) (index : Nat) : Nat :=
  (l.getD (index + 1) 0).val * 256 + (l.getD index 0).val

/-- `GET_BE_WORD(ptr, index)` from `common.h`:
`(ptr[index] << 8) | ptr[index+1]`, a big-endian 16-bit read. -/
def GET_BE_WORD (l : List BYTE) (index : Nat) : Nat :=
  (l.getD index 0).val * 256 + (l.getD (index + 1) 0).val

/-- `ZXS_HEADER_SIZE` from `zxs_tap.h`. -/
def ZXS_HEADER_SIZE : Nat := 17

/-- `struct ZXSTapBlock` from `zxs_tap.h`; `datasize` is `data.length`. -/
structure ZXSTapBlock where
  type : BYTE
  checksum : BYTE
  data : List BYTE
  deriving DecidableEq, Repr

/-- `struct ZXSHeader` from `zxs_tap.h`; `filename` is the 12-slot char
array (`char filename[12]`), kept as raw bytes. -/
structure ZXSHeader where
  datatype : BYTE
  filename : List BYTE
  length : Nat
  param1 : Nat
  param2 : Nat
  deriving DecidableEq, Repr

/-- `zxs_read_tap_block` from `zxs_tap.h`. Reads a 2-byte little-endian
length prefix, computes `datasize = block_length - 2` in wrapping
`unsigned` arithmetic (the C has no guard against `block_length < 2`),
then reads 1 tag byte, `datasize` payload bytes and 1 checksum byte; any
short read yields `none` (the C returns `NULL`). -/
def zxs_read_tap_block (src : List BYTE) : Option ZXSTapBlock :=
  if src.length < 2 then none
  else
    let block_length := GET_LE_WORD src 0
    let datasize := (block_length + (2 ^ 32 - 2)) % 2 ^ 32
    match src.drop 2 with
    | [] => none
    | ty :: r2 =>
      if r2.length < datasize then none
      else
        match r2.drop datasize with
        | [] => none
        | cks :: _ => some ⟨ty, cks, r2.take datasize⟩

/-- The filename-trimming loop of `zxs_parse_header`:
`for( i=9; i>=0 && header->filename[i]==' '; i--) header->filename[i]='\0';`
written as a countdown recursion on the index `i`. -/
def zxs_trim_filename : List BYTE → Nat → List BYTE
  | a, 0 => if a.getD 0 0 = 32 then a.set 0 0 else a
  | a, j + 1 => if a.getD (j + 1) 0 = 32 then zxs_trim_filename (a.set (j + 1) 0) j else a

/-- `zxs_parse_header` from `zxs_tap.h`. Returns `none` (the C returns
`FALSE`) unless the tag is the header tag `0x00` and the payload is
exactly 17 bytes; otherwise copies the 10 filename bytes, null-terminates
slots 10 and 11, strips the trailing space run, and reads the three
little-endian words. -/
def zxs_parse_header (block : ZXSTapBlock) : Option ZXSHeader :=
  if block.type ≠ 0 ∨ block.data.length ≠ ZXS_HEADER_SIZE then none
  else
    let filename0 := (block.data.drop 1).take 10 ++ [0, 0]
    some { datatype := block.data.getD 0 0
           filename := zxs_trim_filename filename0 9
           length := GET_LE_WORD block.data 11
           param1 := GET_LE_WORD block.data 13
           param2 := GET_LE_WORD block.data 15 }

/-- The visible C string held in a char array: the bytes before the first
NUL terminator. -/
def cstring (l : List BYTE) : List BYTE := l.takeWhile (fun c => c ≠ 0)

/-- The trailing-space stripping described by the spec: remove the
maximal trailing run of space bytes.  Used to compare the C trimming loop
against the spec's wording. -/
def rtrim_spaces (l : List BYTE) : List BYTE :=
  (l.reverse.dropWhile (fun c => c == 32)).reverse

/-- `ZXS_COPYRIGHT_CHAR` from `zxs_bas.h`. -/
def ZXS_COPYRIGHT_CHAR : String := "\x7b(C)\x7d"

/-- `ZXS_CTRL_CHARS` from `zxs_bas.h`: the 32 control-character format
strings (indices 0x00–0x1F). -/
def ZXS_CTRL_CHARS : List String :=
  ["\x7b00\x7d", "\x7b01\x7d", "\x7b02\x7d", "\x7b03\x7d", "\x7b04\x7d", "\x7b05\x7d", "\t", "\x7b07\x7d",
   "\x7b08\x7d", "\x7b09\x7d", "\x7b0A\x7d", "\x7b0B\x7d", "\x7b0C\x7d", "\n", "", "\x7b0F\x7d",
   "\x7bINK %d\x7d", "\x7bPAPER %d\x7d", "\x7bFLASH %d\x7d", "\x7bBRIGHT %d\x7d",
   "\x7bINVERSE %d\x7d", "\x7bOVER %d\x7d", "\x7bAT %d,%d\x7d", "\x7bTAB %d,%d\x7d",
   "\x7b18\x7d", "\x7b19\x7d", "\x7b1A\x7d", "\x7b1B\x7d", "\x7b1C\x7d", "\x7b1D\x7d", "\x7b1E\x7d", "\x7b1F\x7d"]

/-- `ZXS_GRAPH_CHARS_START` from `zxs_bas.h`. -/
def ZXS_GRAPH_CHARS_START : Nat := 0x80

/-- `ZXS_GRAPH_CHARS` from `zxs_bas.h`: the 16 block-graphics glyphs
(indices 0x80–0x8F). -/
def ZXS_GRAPH_CHARS : List String :=
  ["\x7b-8\x7d", "\x7b-1\x7d", "\x7b-2\x7d", "\x7b-3\x7d", "\x7b-4\x7d", "\x7b-5\x7d", "\x7b-6\x7d", "\x7b-7\x7d",
   "\x7b+7\x7d", "\x7b+6\x7d", "\x7b+5\x7d", "\x7b+4\x7d", "\x7b+3\x7d", "\x7b+2\x7d", "\x7b+1\x7d", "\x7b+8\x7d"]

/-- `ZXS_UDG_CHARS_START` from `zxs_bas.h`. -/
def ZXS_UDG_CHARS_START : Nat := 0x90

/-- `ZXS_UDG_CHARS` from `zxs_bas.h`: the user-defined-graphics glyphs
(indices 0x90–0xA4, 21 entries `A`–`U` as written in the source). -/
def ZXS_UDG_CHARS : List String :=
  ["\x7bA\x7d", "\x7bB\x7d", "\x7bC\x7d", "\x7bD\x7d", "\x7bE\x7d", "\x7bF\x7d", "\x7bG\x7d", "\x7bH\x7d",
   "\x7bI\x7d", "\x7bJ\x7d", "\x7bK\x7d", "\x7bL\x7d", "\x7bM\x7d", "\x7bN\x7d", "\x7bO\x7d", "\x7bP\x7d",
   "\x7bQ\x7d", "\x7bR\x7d", "\x7bS\x7d", "\x7bT\x7d", "\x7bU\x7d"]

/-- `ZXS_KEYWORDS_START` from `zxs_bas.h`. -/
def ZXS_KEYWORDS_START : Nat := 0xA3

/-- `ZXS_KEYWORDS` from `zxs_bas.h`: the 93 keyword strings for byte
values 0xA3–0xFF. -/
def ZXS_KEYWORDS : List String :=
  [" SPECTRUM ", " PLAY ", "RND", "INKEY$", "PI",
   "FN ", "POINT ", "SCREEN$ ", "ATTR ", "AT ", "TAB ", "VAL$ ", "CODE ",
   "VAL ", "LEN ", "SIN ", "COS ", "TAN ", "ASN ", "ACS ", "ATN ",
   "LN ", "EXP ", "INT ", "SQR ", "SGN ", "ABS ", "PEEK ", "IN ",
   "USR ", "STR$ ", "CHR$ ", "NOT ", "BIN ", " OR ", " AND ", "<=",
   ">=", "<>", " LINE ", " THEN ", " TO ", " STEP ", " DEF FN ", " CAT ",
   " FORMAT ", " MOVE ", " ERASE ", " OPEN #", " CLOSE #", " MERGE ", " VERIFY ", " BEEP ",
   " CIRCLE ", " INK ", " PAPER ", " FLASH ", " BRIGHT ", " INVERSE ", " OVER ", " OUT ",
   " LPRINT ", " LLIST ", " STOP ", " READ ", " DATA ", " RESTORE ", " NEW ", " BORDER ",
   " CONTINUE ", " DIM ", " REM ", " FOR ", " GO TO ", " GO SUB ", " INPUT ", " LOAD ",
   " LIST ", " LET ", " PAUSE ", " NEXT ", " POKE ", " PRINT ", " PLOT ", " RUN ",
   " SAVE ", " RANDOMIZE ", " IF ", " CLS ", " DRAW ", " CLEAR ", " RETURN ", " COPY "]

/-- `zxs_count_parameters` from `zxs_bas.h`: counts the `%` characters of
a format string. -/
def zxs_count_parameters (s : List Char) : Nat := s.countP (fun c => c == '%')

/-- The effect of `fprintf(file, control_name, param1, param2)` on a
control format string: each `%d` consumes the next numeric argument and is
replaced by its decimal rendering; other characters are copied. -/
def zxs_sprintf : List Char → List Nat → List Char
  | [], _ => []
  | '%' :: 'd' :: rest, p :: ps => (Nat.repr p).toList ++ zxs_sprintf rest ps
  | c :: rest, ps => c :: zxs_sprintf rest ps

/-- The quote-flag update at the bottom of the `zxs_fprint_basic_line`
loop: `if( byte == 0x22 ) { if( !in_rem ) { in_quotes = !in_quotes; } }`. -/
def zxs_next_in_quotes (byte : Nat) (in_quotes in_rem : Bool) : Bool :=
  if byte = 0x22 ∧ in_rem = false then !in_quotes else in_quotes

/-- The REM-flag update at the bottom of the `zxs_fprint_basic_line`
loop: `if( byte == 0xEA ) { in_rem = TRUE; }`. -/
def zxs_next_in_rem (byte : Nat) (in_rem : Bool) : Bool :=
  if byte = 0xEA then true else in_rem

/-- One iteration of the `zxs_fprint_basic_line` loop body (everything up
to, but not including, the flag updates): classifies `byte = data[i]`,
produces the text emitted by the corresponding `fprintf`, the keyword
string when the keyword branch ran (the C's `keyword` pointer, `none`
elsewhere), and the number of argument bytes the iteration skips over
(`i += ...`).  Table lookups use checked indexing (`none` would mean the
C indexed out of bounds); control argument bytes beyond the buffer read
as `0` through the C's own `(i+k)<datasize ? data[i+k] : 0` guards, here
`List.getD` of the bytes following `data[i]`. -/
def zxs_basic_line_step (byte : Nat) (rest : List BYTE) (in_quotes : Bool)
    (last_char : Nat) : Option (List Char × Option (List Char) × Nat) :=
  if byte < 0x20 then
    match ZXS_CTRL_CHARS.get? byte with
    | none => none
    | some fmt =>
      let param1 := (rest.getD 0 0).val
      let param2 := (rest.getD 1 0).val
      let out := zxs_sprintf fmt.toList [param1, param2]
      let skip := if byte = 0x0E then 5 else zxs_count_parameters fmt.toList
      some (out, none, skip)
  else if byte < 0x80 then
    if byte = 0x7F then some (ZXS_COPYRIGHT_CHAR.toList, none, 0)
    else some ([Char.ofNat byte], none, 0)
  else if byte < 0x90 then
    match ZXS_GRAPH_CHARS.get? (byte - ZXS_GRAPH_CHARS_START) with
    | none => none
    | some s => some (s.toList, none, 0)
  else if byte < (if in_quotes then 0xA5 else 0xA3) then
    match ZXS_UDG_CHARS.get? (byte - ZXS_UDG_CHARS_START) with
    | none => none
    | some s => some (s.toList, none, 0)
  else
    match ZXS_KEYWORDS.get? (byte - ZXS_KEYWORDS_START) with
    | none => none
    | some kw0 =>
      let kl0 := kw0.toList
      let kl := if last_char = 0x20 ∧ kl0.headD (Char.ofNat 0) = ' ' then kl0.drop 1 else kl0
      some (kl, some kl, 0)

/-- The `last_char` update of the `zxs_fprint_basic_line` loop: in the
keyword branch the C stores the *boolean* `keyword[strlen(keyword)-1] == ' '`
(so `1` or `0`), and for every non-keyword byte (`if( !keyword )`) it
stores the byte itself. -/
def zxs_next_last_char (byte : Nat) (kwOpt : Option (List Char)) : Nat :=
  match kwOpt with
  | some kl => if kl.getLastD (Char.ofNat 0) = ' ' then 1 else 0
  | none => byte

/-- The loop of `zxs_fprint_basic_line` from `zxs_bas.h`, fuel-indexed.
Each iteration runs `zxs_basic_line_step` on the current byte, advances
the cursor past the consumed argument bytes, and updates the `last_char`,
`in_quotes`, `in_rem` flags exactly as the C does. -/
def zxs_basic_line_loop : Nat → List BYTE → Bool → Bool → Nat → Option (List Char)
  | _, [], _, _, _ => some []
  | 0, _ :: _, _, _, _ => none
  | fuel + 1, b :: rest, in_quotes, in_rem, last_char =>
    match zxs_basic_line_step b.val rest in_quotes last_char with
    | none => none
    | some (out, kwOpt, skip) =>
      match zxs_basic_line_loop fuel (rest.drop skip)
              (zxs_next_in_quotes b.val in_quotes in_rem)
              (zxs_next_in_rem b.val in_rem)
              (zxs_next_last_char b.val kwOpt) with
      | none => none
      | some s => some (out ++ s)

/-- `zxs_fprint_basic_line` from `zxs_bas.h`, for a valid output file and
the given data buffer.  The C returns `err_code`, which is set to `1`
only when `file == NULL` and is never assigned inside the loop, so with a
valid file the returned code is `0`; the emitted text is paired with it.
The fuel `data.length` is sufficient because every iteration consumes at
least one byte. -/
def zxs_fprint_basic_line (data : List BYTE) : Option (Nat × List Char) :=
  (zxs_basic_line_loop data.length data false false 0).map (fun s => (0, s))

/-- The loop of `zxs_fprint_basic_program` from `zxs_bas.h`, fuel-indexed:
while bytes remain, read a big-endian line number (stop successfully on
the 16384 sentinel), a little-endian line length, check it against the
remaining bytes, decode that many bytes as one line, and continue after
them.  Error exits return code `1` (the C prints the buffer-overflow
message and returns 1); the successfully decoded `(line number, text)`
pairs are accumulated. -/
def zxs_basic_program_loop : Nat → List BYTE → Option (Nat × List (Nat × List Char))
  | _, [] => some (0, [])
  | 0, _ :: _ => none
  | fuel + 1, b :: t =>
    if (b :: t).length < 2 then some (1, [])
    else
      let line_number := GET_BE_WORD (b :: t) 0
      let d2 := (b :: t).drop 2
      if 16384 ≤ line_number then some (0, [])
      else if d2.length < 2 then some (1, [])
      else
        let line_length := GET_LE_WORD d2 0
        let d4 := d2.drop 2
        if d4.length < line_length then some (1, [])
        else
          match zxs_fprint_basic_line (d4.take line_length) with
          | none => none
          | some (e, txt) =>
            if e ≠ 0 then some (e, [(line_number, txt)])
            else
              match zxs_basic_program_loop fuel (d4.drop line_length) with
              | none => none
              | some (e2, ls) => some (e2, (line_number, txt) :: ls)

/-- `zxs_fprint_basic_program` from `zxs_bas.h`, for a valid output file.
The fuel `data.length` is sufficient because every iteration consumes at
least four bytes. -/
def zxs_fprint_basic_program (data : List BYTE) : Option (Nat × List (Nat × List Char)) :=
  zxs_basic_program_loop data.length data

/-! ### Table sizes and basic facts -/

/-- The control table has 32 entries. -/
theorem ZXS_CTRL_CHARS_length : ZXS_CTRL_CHARS.length = 32 := rfl

/-- The graphics table has 16 entries. -/
theorem ZXS_GRAPH_CHARS_length : ZXS_GRAPH_CHARS.length = 16 := rfl

/-- The UDG table has 21 entries. -/
theorem ZXS_UDG_CHARS_length : ZXS_UDG_CHARS.length = 21 := rfl

/-- The keyword table has 93 entries. -/
theorem ZXS_KEYWORDS_length : ZXS_KEYWORDS.length = 93 := rfl

/-- Every branch of the loop body produces a value: all table indices are
in range for every possible byte value. -/
theorem zxs_basic_line_step_isSome (byte : Nat) (hb : byte < 256) (rest : List BYTE)
    (q : Bool) (lc : Nat) : (zxs_basic_line_step byte rest q lc).isSome := by
  unfold zxs_basic_line_step
  by_cases h1 : byte < 0x20
  · have hlt : byte < ZXS_CTRL_CHARS.length := by rw [ZXS_CTRL_CHARS_length]; omega
    rw [if_pos h1, List.get?_eq_get hlt]
    simp
  · rw [if_neg h1]
    by_cases h2 : byte < 0x80
    · rw [if_pos h2]
      by_cases h3 : byte = 0x7F
      · rw [if_pos h3]; simp
      · rw [if_neg h3]; simp
    · rw [if_neg h2]
      by_cases h4 : byte < 0x90
      · have hlt : byte - ZXS_GRAPH_CHARS_START < ZXS_GRAPH_CHARS.length := by
          rw [ZXS_GRAPH_CHARS_length]; unfold ZXS_GRAPH_CHARS_START; omega
        rw [if_pos h4, List.get?_eq_get hlt]
        simp
      · rw [if_neg h4]
        by_cases h5 : byte < (if q then 0xA5 else 0xA3)
        · have hb2 : byte < 0xA5 := by cases q <;> simp at h5 <;> omega
          have hlt : byte - ZXS_UDG_CHARS_START < ZXS_UDG_CHARS.length := by
            rw [ZXS_UDG_CHARS_length]; unfold ZXS_UDG_CHARS_START; omega
          rw [if_pos h5, List.get?_eq_get hlt]
          simp
        · have hb2 : 0xA3 ≤ byte := by cases q <;> simp at h5 <;> omega
          have hlt : byte - ZXS_KEYWORDS_START < ZXS_KEYWORDS.length := by
            rw [ZXS_KEYWORDS_length]; unfold ZXS_KEYWORDS_START; omega
          rw [if_neg h5, List.get?_eq_get hlt]
          simp

/-- The line loop never runs out of fuel when the fuel is at least the
buffer length, and never indexes a table out of range. -/
theorem zxs_basic_line_loop_isSome :
    ∀ (fuel : Nat) (l : List BYTE) (q r : Bool) (lc : Nat), l.length ≤ fuel →
      (zxs_basic_line_loop fuel l q r lc).isSome := by
  intro fuel
  induction fuel with
  | zero =>
    intro l q r lc h
    match l with
    | [] => simp [zxs_basic_line_loop]
    | b :: rest => simp at h
  | succ n ih =>
    intro l q r lc h
    match l with
    | [] => simp [zxs_basic_line_loop]
    | b :: rest =>
      rw [zxs_basic_line_loop]
      obtain ⟨st, hst⟩ := Option.isSome_iff_exists.mp
        (zxs_basic_line_step_isSome b.val b.isLt rest q lc)
      rw [hst]
      obtain ⟨out, kwOpt, skip⟩ := st
      have hlen : (rest.drop skip).length ≤ n := by
        rw [List.length_drop]
        simp only [List.length_cons] at h
        omega
      obtain ⟨s, hs⟩ := Option.isSome_iff_exists.mp
        (ih (rest.drop skip) (zxs_next_in_quotes b.val q r) (zxs_next_in_rem b.val r)
          (zxs_next_last_char b.val kwOpt) hlen)
      dsimp only
      rw [hs]
      rfl

/-- `zxs_fprint_basic_line` succeeds with error code `0` on every data
buffer (the C loop contains no assignment to `err_code`). -/
theorem zxs_fprint_basic_line_eq (data : List BYTE) :
    ∃ s, zxs_fprint_basic_line data = some (0, s) := by
  obtain ⟨s, hs⟩ := Option.isSome_iff_exists.mp
    (zxs_basic_line_loop_isSome data.length data false false 0 le_rfl)
  exact ⟨s, by rw [zxs_fprint_basic_line, hs]; rfl⟩

/-- The program loop never runs out of fuel when the fuel is at least the
buffer length (each iteration consumes at least four bytes). -/
theorem zxs_basic_program_loop_isSome :
    ∀ (fuel : Nat) (l : List BYTE), l.length ≤ fuel →
      (zxs_basic_program_loop fuel l).isSome := by
  intro fuel
  induction fuel with
  | zero =>
    intro l h
    match l with
    | [] => simp [zxs_basic_program_loop]
    | b :: t => simp at h
  | succ n ih =>
    intro l h
    match l with
    | [] => simp [zxs_basic_program_loop]
    | b :: t =>
      rw [zxs_basic_program_loop]
      dsimp only
      by_cases h2 : (b :: t).length < 2
      · rw [if_pos h2]; rfl
      · rw [if_neg h2]
        by_cases hsen : 16384 ≤ GET_BE_WORD (b :: t) 0
        · rw [if_pos hsen]; rfl
        · rw [if_neg hsen]
          by_cases h3 : ((b :: t).drop 2).length < 2
          · rw [if_pos h3]; rfl
          · rw [if_neg h3]
            by_cases h4 : (((b :: t).drop 2).drop 2).length < GET_LE_WORD ((b :: t).drop 2) 0
            · rw [if_pos h4]; rfl
            · rw [if_neg h4]
              obtain ⟨txt, htxt⟩ := zxs_fprint_basic_line_eq
                ((((b :: t).drop 2).drop 2).take (GET_LE_WORD ((b :: t).drop 2) 0))
              rw [htxt]
              dsimp only
              rw [if_neg (by simp)]
              have hlen : ((((b :: t).drop 2).drop 2).drop (GET_LE_WORD ((b :: t).drop 2) 0)).length ≤ n := by
                simp only [List.length_drop, List.length_cons] at h ⊢
                omega
              obtain ⟨res, hres⟩ := Option.isSome_iff_exists.mp (ih _ hlen)
              rw [hres]
              rfl

/-- Any two sufficient fuels give the program loop the same result. -/
theorem zxs_basic_program_loop_congr :
    ∀ (f1 : Nat) (l : List BYTE) (f2 : Nat), l.length ≤ f1 → l.length ≤ f2 →
      zxs_basic_program_loop f1 l = zxs_basic_program_loop f2 l := by
  intro f1
  induction f1 with
  | zero =>
    intro l f2 h1 h2
    match l with
    | [] => cases f2 <;> simp [zxs_basic_program_loop]
    | b :: t => simp at h1
  | succ n ih =>
    intro l f2 h1 h2
    match l with
    | [] => cases f2 <;> simp [zxs_basic_program_loop]
    | b :: t =>
      match f2 with
      | 0 => simp at h2
      | m + 1 =>
        rw [zxs_basic_program_loop]
        conv_rhs => rw [zxs_basic_program_loop]
        dsimp only
        have hlen1 : ((((b :: t).drop 2).drop 2).drop (GET_LE_WORD ((b :: t).drop 2) 0)).length ≤ n := by
          simp only [List.length_drop, List.length_cons] at h1 ⊢
          omega
        have hlen2 : ((((b :: t).drop 2).drop 2).drop (GET_LE_WORD ((b :: t).drop 2) 0)).length ≤ m := by
          simp only [List.length_drop, List.length_cons] at h2 ⊢
          omega
        rw [ih _ m hlen1 hlen2]

/-- `zxs_fprint_basic_program` always yields a result (never an
out-of-bounds access, never fuel exhaustion). -/
theorem zxs_fprint_basic_program_isSome (data : List BYTE) :
    (zxs_fprint_basic_program data).isSome :=
  zxs_basic_program_loop_isSome data.length data le_rfl

/-! ### Filename trimming -/

/-- `dropWhile` never lengthens a list. -/
theorem dropWhile_length_le {α : Type} (p : α → Bool) :
    ∀ l : List α, (l.dropWhile p).length ≤ l.length := by
  intro l
  induction l with
  | nil => simp
  | cons a t ih =>
    rw [List.dropWhile_cons]
    split
    · exact le_trans ih (by simp)
    · simp

/-- Space stripping never lengthens a list. -/
theorem rtrim_spaces_length_le (l : List BYTE) : (rtrim_spaces l).length ≤ l.length := by
  unfold rtrim_spaces
  rw [List.length_reverse]
  calc (l.reverse.dropWhile (fun c => c == 32)).length
      ≤ l.reverse.length := dropWhile_length_le _ _
    _ = l.length := List.length_reverse l

/-- Appending a space extends the stripped run. -/
theorem rtrim_spaces_concat_space (ys : List BYTE) :
    rtrim_spaces (ys ++ [32]) = rtrim_spaces ys := by
  unfold rtrim_spaces
  rw [List.reverse_append]
  simp [List.dropWhile_cons]

/-- Appending a non-space byte stops the stripping at once. -/
theorem rtrim_spaces_concat_nonspace (ys : List BYTE) (y : BYTE) (hy : y ≠ 32) :
    rtrim_spaces (ys ++ [y]) = ys ++ [y] := by
  unfold rtrim_spaces
  rw [List.reverse_append]
  simp [List.dropWhile_cons, hy]

/-- The C trimming loop, started at the last index of `l` on the array
`l ++ post`, overwrites exactly the maximal trailing space run of `l`
with NUL bytes and leaves everything after `l` untouched. -/
theorem zxs_trim_filename_eq :
    ∀ (i : Nat) (l post : List BYTE), l.length = i + 1 →
      zxs_trim_filename (l ++ post) i =
        rtrim_spaces l ++ List.replicate (l.length - (rtrim_spaces l).length) 0 ++ post := by
  intro i
  induction i with
  | zero =>
    intro l post hl
    match l, hl with
    | [y], _ =>
      rw [zxs_trim_filename]
      by_cases hy : y = 32
      · subst hy
        rw [if_pos (by simp)]
        simp [rtrim_spaces]
      · rw [if_neg (by simpa using hy)]
        simp [rtrim_spaces, List.dropWhile_cons, hy]
  | succ j ih =>
    intro l post hl
    obtain ⟨ys, y, rfl⟩ : ∃ ys y, l = ys ++ [y] := by
      rcases List.eq_nil_or_concat l with h | ⟨ys, y, h⟩
      · subst h; simp at hl
      · exact ⟨ys, y, by simpa [List.concat_eq_append] using h⟩
    have hys : ys.length = j + 1 := by
      simp only [List.length_append, List.length_singleton] at hl
      omega
    have hget : ((ys ++ [y]) ++ post).getD (j + 1) 0 = y := by
      rw [List.append_assoc, List.getD_append_right _ _ _ _ (by omega)]
      simp [hys]
    rw [zxs_trim_filename]
    by_cases hy : y = 32
    · rw [if_pos (by rw [hget, hy])]
      have hset : ((ys ++ [y]) ++ post).set (j + 1) 0 = ys ++ (0 :: post) := by
        rw [List.append_assoc, List.set_append, if_neg (by omega)]
        simp [hys]
      rw [hset, ih ys (0 :: post) hys]
      subst hy
      rw [rtrim_spaces_concat_space]
      have hk : (ys ++ [(32 : BYTE)]).length - (rtrim_spaces ys).length
          = (ys.length - (rtrim_spaces ys).length) + 1 := by
        have := rtrim_spaces_length_le ys
        simp only [List.length_append, List.length_singleton]
        omega
      rw [hk, List.replicate_succ']
      simp [List.append_assoc]
    · rw [if_neg (by rw [hget]; simpa using hy)]
      rw [rtrim_spaces_concat_nonspace ys y hy]
      simp

/-! ### Claims -/

/-- Claim C1 (code bug): the claim says `zxs_read_tap_block` rejects a
length prefix `L < 2` as a malformed-stream failure instead of silently
computing the payload size by the underflowing subtraction `L - 2`.  The
code has no such guard: it computes `datasize = L - 2` in wrapping
`unsigned` arithmetic.  This theorem evaluates the reader on the failing
input `00 00` (so `L = 0`) followed by `2^32` further bytes: the reader
returns a block (with `datasize = 2^32 - 2`) instead of failing; on
shorter sources it fails only because the gigantic `fread` comes up
short, never because of an `L < 2` check. -/
theorem c1_read_tap_block_accepts_underflow :
    (zxs_read_tap_block ((0 : BYTE) :: 0 :: List.replicate (2 ^ 32) 0)).isSome := by
  show (zxs_read_tap_block ((0 : BYTE) :: 0 :: List.replicate 4294967296 0)).isSome
  rw [zxs_read_tap_block]
  dsimp only
  rw [if_neg (show ¬((0 : BYTE) :: 0 :: List.replicate 4294967296 0).length < 2 by
    rw [List.length_cons, List.length_cons, List.length_replicate]
    norm_num)]
  have h1 : GET_LE_WORD ((0 : BYTE) :: 0 :: List.replicate 4294967296 0) 0 = 0 := rfl
  rw [h1]
  have h2 : (0 + (2 ^ 32 - 2)) % 2 ^ 32 = 4294967294 := by norm_num
  rw [h2]
  have hd2 : List.drop 2 ((0 : BYTE) :: 0 :: List.replicate 4294967296 0)
      = List.replicate 4294967296 0 := rfl
  rw [hd2]
  have h3 : List.replicate 4294967296 (0 : BYTE) = 0 :: List.replicate 4294967295 0 := by
    rw [show (4294967296 : Nat) = 4294967295 + 1 from rfl, List.replicate_succ]
  rw [h3]
  dsimp only
  rw [if_neg (show ¬(List.replicate 4294967295 (0 : BYTE)).length < 4294967294 by
    rw [List.length_replicate]
    norm_num)]
  rw [List.drop_replicate]
  have h4 : 4294967295 - 4294967294 = 1 := by norm_num
  rw [h4, List.replicate_one]
  rfl

/-- Claim C2 (confirmed): `zxs_parse_header` returns `FALSE` exactly when
the block tag is not `0x00` or the payload length is not 17; on every
17-byte tag-`0x00` block it returns a header whose `datatype` is payload
byte 0 as-is and whose `length`, `param1`, `param2` are the little-endian
words at offsets 11, 13, 15. -/
theorem c2_parse_header_characterization :
    (∀ b : ZXSTapBlock, (b.type ≠ 0 ∨ b.data.length ≠ 17) → zxs_parse_header b = none) ∧
    (∀ b : ZXSTapBlock, b.type = 0 → b.data.length = 17 →
      ∃ hd : ZXSHeader, zxs_parse_header b = some hd ∧
        hd.datatype = b.data.getD 0 0 ∧
        hd.length = (b.data.getD 12 0).val * 256 + (b.data.getD 11 0).val ∧
        hd.param1 = (b.data.getD 14 0).val * 256 + (b.data.getD 13 0).val ∧
        hd.param2 = (b.data.getD 16 0).val * 256 + (b.data.getD 15 0).val) := by
  constructor
  · intro b h
    rw [zxs_parse_header, if_pos (by simpa [ZXS_HEADER_SIZE] using h)]
  · intro b h1 h2
    rw [zxs_parse_header, if_neg (by simp [h1, h2, ZXS_HEADER_SIZE])]
    exact ⟨_, rfl, rfl, rfl, rfl, rfl⟩

/-- Claim C2 witness: a data block is rejected; a concrete 17-byte header
block is parsed with the stated field values. -/
theorem c2_parse_header_characterization_witness :
    zxs_parse_header ⟨0xFF, 0, [1, 2, 3]⟩ = none ∧
    (∃ hd : ZXSHeader,
      zxs_parse_header ⟨0, 0x5A, [3, 72, 69, 76, 76, 79, 32, 32, 32, 32, 32, 0x34, 0x12, 0x78, 0x56, 0xBC, 0x9A]⟩
        = some hd ∧
      hd.datatype = (([3, 72, 69, 76, 76, 79, 32, 32, 32, 32, 32, 0x34, 0x12, 0x78, 0x56, 0xBC, 0x9A] : List BYTE).getD 0 0) ∧
      hd.length = (([3, 72, 69, 76, 76, 79, 32, 32, 32, 32, 32, 0x34, 0x12, 0x78, 0x56, 0xBC, 0x9A] : List BYTE).getD 12 0).val * 256
          + (([3, 72, 69, 76, 76, 79, 32, 32, 32, 32, 32, 0x34, 0x12, 0x78, 0x56, 0xBC, 0x9A] : List BYTE).getD 11 0).val ∧
      hd.param1 = (([3, 72, 69, 76, 76, 79, 32, 32, 32, 32, 32, 0x34, 0x12, 0x78, 0x56, 0xBC, 0x9A] : List BYTE).getD 14 0).val * 256
          + (([3, 72, 69, 76, 76, 79, 32, 32, 32, 32, 32, 0x34, 0x12, 0x78, 0x56, 0xBC, 0x9A] : List BYTE).getD 13 0).val ∧
      hd.param2 = (([3, 72, 69, 76, 76, 79, 32, 32, 32, 32, 32, 0x34, 0x12, 0x78, 0x56, 0xBC, 0x9A] : List BYTE).getD 16 0).val * 256
          + (([3, 72, 69, 76, 76, 79, 32, 32, 32, 32, 32, 0x34, 0x12, 0x78, 0x56, 0xBC, 0x9A] : List BYTE).getD 15 0).val) :=
  ⟨c2_parse_header_characterization.1 _ (Or.inl (by decide)),
   c2_parse_header_characterization.2 _ (by decide) (by decide)⟩

/-- Claim C3 (confirmed): whenever `zxs_fprint_basic_program` reads a
2-byte big-endian line number that is at least 16384, it returns success
immediately, emitting nothing further and reading no further bytes (the
recursion for any later iteration re-enters this very function, so the
entry-point statement covers every iteration). -/
theorem c3_sentinel_terminates (data : List BYTE) (h2 : 2 ≤ data.length)
    (hs : 16384 ≤ (data.getD 0 0).val * 256 + (data.getD 1 0).val) :
    zxs_fprint_basic_program data = some (0, []) := by
  match data, h2 with
  | b0 :: b1 :: t, _ =>
    rw [zxs_fprint_basic_program]
    simp only [List.length_cons]
    rw [zxs_basic_program_loop]
    dsimp only
    rw [if_neg (by simp only [List.length_cons]; omega)]
    rw [if_pos (by simpa [GET_BE_WORD] using hs)]

/-- Claim C3 witness: the sentinel line number `0x4000` stops decoding at
once even though a byte remains in the buffer. -/
theorem c3_sentinel_terminates_witness :
    zxs_fprint_basic_program [0x40, 0x00, 0x37] = some (0, []) :=
  c3_sentinel_terminates [0x40, 0x00, 0x37] (by decide) (by decide)

/-- Claim C4 (code bug): the claim says a keyword's trailing space is
tracked so that it participates in the next iteration's collapse
decision, and in particular two consecutive keywords that end and begin
with a space render with a single space between them.  The C stores the
*boolean* `keyword[strlen(keyword)-1] == ' '` (value 1 or 0) in
`last_char` and the next iteration compares `last_char == ' '` (0x20), so
the collapse never fires after a keyword.  Evaluating the decoder at the
failing input `F5 F5` (the PRINT token twice) yields a doubled space
`" PRINT  PRINT "`, not the single-space rendering the claim requires. -/
theorem c4_keyword_space_not_collapsed :
    zxs_fprint_basic_line [0xF5, 0xF5] = some (0, " PRINT  PRINT ".toList) ∧
    " PRINT  PRINT ".toList ≠ " PRINT PRINT ".toList :=
  ⟨by decide, by decide⟩

/-- Claim C5 counterexample: the claim says a trailing run mixing spaces
and NULs (a space followed by NULs) is fully stripped, so the payload
filename bytes `LOADER ␠␀␀␀` would have to parse to exactly `LOADER`.
The C trimming loop tests only for `' '` and stops at the first NUL, so
the visible filename keeps the space before the NUL run:
`LOADER␠`, not `LOADER`. -/
theorem c5_nul_stops_the_strip :
    (zxs_parse_header ⟨0, 0, [3, 76, 79, 65, 68, 69, 82, 32, 0, 0, 0, 0, 0, 0, 0, 0, 0]⟩).map
        (fun hd => cstring hd.filename)
      = some [76, 79, 65, 68, 69, 82, 32] ∧
    ([76, 79, 65, 68, 69, 82, 32] : List BYTE) ≠ [76, 79, 65, 68, 69, 82] :=
  ⟨by decide, by decide⟩

/-- Claim C5 amended: the parsed filename is the 10 bytes at offsets 1–10
with the maximal trailing run of *space* bytes (only) overwritten by
NULs — a NUL byte stops the stripping, so a space to the left of a
trailing NUL survives in the array — and the 12-slot array is padded with
NULs after the kept prefix, hence always null-terminated. -/
theorem c5_trim_strips_spaces_only (b : ZXSTapBlock) (h1 : b.type = 0)
    (h2 : b.data.length = 17) :
    ∃ hd : ZXSHeader, zxs_parse_header b = some hd ∧
      hd.filename = rtrim_spaces ((b.data.drop 1).take 10) ++
        List.replicate (12 - (rtrim_spaces ((b.data.drop 1).take 10)).length) 0 := by
  rw [zxs_parse_header, if_neg (by simp [h1, h2, ZXS_HEADER_SIZE])]
  dsimp only
  refine ⟨_, rfl, ?_⟩
  dsimp only
  have hlen : ((b.data.drop 1).take 10).length = 10 := by
    simp [List.length_take, List.length_drop, h2]
  rw [zxs_trim_filename_eq 9 ((b.data.drop 1).take 10) [0, 0] (by rw [hlen])]
  rw [hlen]
  have hk := rtrim_spaces_length_le ((b.data.drop 1).take 10)
  rw [hlen] at hk
  have hrep : List.replicate (10 - (rtrim_spaces ((b.data.drop 1).take 10)).length) (0 : BYTE)
        ++ [0, 0]
      = List.replicate (12 - (rtrim_spaces ((b.data.drop 1).take 10)).length) 0 := by
    have h12 : 12 - (rtrim_spaces ((b.data.drop 1).take 10)).length
        = (10 - (rtrim_spaces ((b.data.drop 1).take 10)).length) + 2 := by omega
    rw [h12, List.replicate_add]
    rfl
  rw [List.append_assoc, hrep]

/-- Claim C5 amended, witness: the spec's own example `LOADER` plus four
spaces parses with the four spaces stripped and NUL padding. -/
theorem c5_trim_strips_spaces_only_witness :
    ∃ hd : ZXSHeader,
      zxs_parse_header ⟨0, 0, [0, 76, 79, 65, 68, 69, 82, 32, 32, 32, 32, 0, 0, 0, 0, 0, 0]⟩
        = some hd ∧
      hd.filename = rtrim_spaces ((([0, 76, 79, 65, 68, 69, 82, 32, 32, 32, 32, 0, 0, 0, 0, 0, 0] : List BYTE).drop 1).take 10) ++
        List.replicate (12 - (rtrim_spaces ((([0, 76, 79, 65, 68, 69, 82, 32, 32, 32, 32, 0, 0, 0, 0, 0, 0] : List BYTE).drop 1).take 10)).length) 0 :=
  c5_trim_strips_spaces_only _ (by decide) (by decide)

/-- Claim C6 (confirmed): `zxs_fprint_basic_program` returns the error
result (code 1, the C prints the buffer-overflow message) whenever fewer
than 2 bytes remain where a line number is expected on a non-empty
buffer, whenever fewer than 2 bytes remain where a line length is
expected, or whenever the declared line length exceeds the remaining
bytes; otherwise it decodes exactly `LL` bytes as one line and continues
after them. -/
theorem c6_program_error_handling :
    (∀ data : List BYTE, 0 < data.length → data.length < 2 →
        zxs_fprint_basic_program data = some (1, [])) ∧
    (∀ data : List BYTE, 2 ≤ data.length → GET_BE_WORD data 0 < 16384 →
        data.length - 2 < 2 →
        zxs_fprint_basic_program data = some (1, [])) ∧
    (∀ data : List BYTE, 4 ≤ data.length → GET_BE_WORD data 0 < 16384 →
        data.length - 4 < GET_LE_WORD (data.drop 2) 0 →
        zxs_fprint_basic_program data = some (1, [])) ∧
    (∀ data : List BYTE, 4 ≤ data.length → GET_BE_WORD data 0 < 16384 →
        GET_LE_WORD (data.drop 2) 0 ≤ data.length - 4 →
        ∃ txt e ls,
          zxs_fprint_basic_line (((data.drop 2).drop 2).take (GET_LE_WORD (data.drop 2) 0))
            = some (0, txt) ∧
          zxs_fprint_basic_program (((data.drop 2).drop 2).drop (GET_LE_WORD (data.drop 2) 0))
            = some (e, ls) ∧
          zxs_fprint_basic_program data = some (e, (GET_BE_WORD data 0, txt) :: ls)) := by
  refine ⟨?_, ?_, ?_, ?_⟩
  · intro data h0 h2
    match data, h0, h2 with
    | [b], _, _ =>
      rw [zxs_fprint_basic_program]
      simp only [List.length_cons, List.length_nil]
      rw [zxs_basic_program_loop]
      dsimp only
      rw [if_pos (show ([b] : List BYTE).length < 2 by simp)]
  · intro data hge hbe hlt
    match data, hge with
    | b0 :: b1 :: t, _ =>
      simp only [List.length_cons] at hlt
      rw [zxs_fprint_basic_program]
      simp only [List.length_cons]
      rw [zxs_basic_program_loop]
      dsimp only
      rw [if_neg (by simp only [List.length_cons]; omega)]
      rw [if_neg (by omega)]
      have hd2 : (b0 :: b1 :: t).drop 2 = t := rfl
      rw [hd2]
      rw [if_pos (by omega)]
  · intro data hge hbe hll
    match data, hge with
    | b0 :: b1 :: b2 :: b3 :: t, _ =>
      simp only [List.length_cons] at hll
      have hd2 : (b0 :: b1 :: b2 :: b3 :: t).drop 2 = b2 :: b3 :: t := rfl
      rw [hd2] at hll
      rw [zxs_fprint_basic_program]
      simp only [List.length_cons]
      rw [zxs_basic_program_loop]
      dsimp only
      rw [if_neg (by simp only [List.length_cons]; omega)]
      rw [if_neg (by omega)]
      rw [hd2]
      rw [if_neg (by simp only [List.length_cons]; omega)]
      have hd4 : (b2 :: b3 :: t).drop 2 = t := rfl
      rw [hd4]
      rw [if_pos (by omega)]
  · intro data hge hbe hll
    match data, hge with
    | b0 :: b1 :: b2 :: b3 :: t, _ =>
      simp only [List.length_cons] at hll
      have hd2 : (b0 :: b1 :: b2 :: b3 :: t).drop 2 = b2 :: b3 :: t := rfl
      rw [hd2] at hll
      obtain ⟨txt, htxt⟩ := zxs_fprint_basic_line_eq (t.take (GET_LE_WORD (b2 :: b3 :: t) 0))
      obtain ⟨⟨e, ls⟩, hels⟩ := Option.isSome_iff_exists.mp
        (zxs_fprint_basic_program_isSome (t.drop (GET_LE_WORD (b2 :: b3 :: t) 0)))
      refine ⟨txt, e, ls, htxt, hels, ?_⟩
      rw [zxs_fprint_basic_program]
      simp only [List.length_cons]
      rw [zxs_basic_program_loop]
      dsimp only
      rw [if_neg (by simp only [List.length_cons]; omega)]
      rw [if_neg (by omega)]
      rw [hd2]
      rw [if_neg (by simp only [List.length_cons]; omega)]
      have hd4 : (b2 :: b3 :: t).drop 2 = t := rfl
      rw [hd4]
      rw [if_neg (by omega)]
      rw [htxt]
      dsimp only
      rw [if_neg (by simp)]
      have hc : zxs_basic_program_loop (t.length + 1 + 1 + 1)
            (t.drop (GET_LE_WORD (b2 :: b3 :: t) 0))
          = zxs_fprint_basic_program (t.drop (GET_LE_WORD (b2 :: b3 :: t) 0)) := by
        rw [zxs_fprint_basic_program]
        exact zxs_basic_program_loop_congr _ _ _ (by rw [List.length_drop]; omega) le_rfl
      rw [hc, hels]

/-- Claim C6 witness: the four cases at concrete inputs — a 1-byte
buffer, a 3-byte buffer (line length field truncated), a declared line
length running past the end, and a well-formed single-line program. -/
theorem c6_program_error_handling_witness :
    zxs_fprint_basic_program [0x05] = some (1, []) ∧
    zxs_fprint_basic_program [0x00, 0x0A, 0x07] = some (1, []) ∧
    zxs_fprint_basic_program [0x00, 0x0A, 0x05, 0x00] = some (1, []) ∧
    (∃ txt e ls,
      zxs_fprint_basic_line (((([0x00, 0x0A, 0x01, 0x00, 0x41] : List BYTE).drop 2).drop 2).take
          (GET_LE_WORD (([0x00, 0x0A, 0x01, 0x00, 0x41] : List BYTE).drop 2) 0)) = some (0, txt) ∧
      zxs_fprint_basic_program (((([0x00, 0x0A, 0x01, 0x00, 0x41] : List BYTE).drop 2).drop 2).drop
          (GET_LE_WORD (([0x00, 0x0A, 0x01, 0x00, 0x41] : List BYTE).drop 2) 0)) = some (e, ls) ∧
      zxs_fprint_basic_program [0x00, 0x0A, 0x01, 0x00, 0x41]
        = some (e, (GET_BE_WORD ([0x00, 0x0A, 0x01, 0x00, 0x41] : List BYTE) 0, txt) :: ls)) :=
  ⟨c6_program_error_handling.1 _ (by decide) (by decide),
   c6_program_error_handling.2.1 _ (by decide) (by decide) (by decide),
   c6_program_error_handling.2.2.1 _ (by decide) (by decide) (by decide),
   c6_program_error_handling.2.2.2 _ (by decide) (by decide) (by decide)⟩

/-- Claim C7 (confirmed): the REM byte `0xEA` sets `in_rem` permanently
(*every* later update keeps it true), a quote byte never toggles
`in_quotes` while `in_rem` is true, and in the concrete line
`" " REM " SPECTRUM-token`: quote opened, quote closed, REM, unmatched
quote — the final quote renders as a literal quote character and the
quote state stays off, witnessed by the following byte `0xA3` decoding as
the keyword ` SPECTRUM ` (inside quotes it would be a UDG glyph). -/
theorem c7_rem_suppresses_quote_toggle :
    (∀ r : Bool, zxs_next_in_rem 0xEA r = true) ∧
    (∀ byte : Nat, zxs_next_in_rem byte true = true) ∧
    (∀ q : Bool, zxs_next_in_quotes 0x22 q true = q) ∧
    zxs_fprint_basic_line [0x22, 0x22, 0xEA, 0x22, 0xA3]
      = some (0, "\"\" REM \" SPECTRUM ".toList) := by
  refine ⟨?_, ?_, ?_, by decide⟩
  · intro r; simp [zxs_next_in_rem]
  · intro byte; simp [zxs_next_in_rem]
  · intro q; simp [zxs_next_in_quotes]

/-- Claim C7 witness: the universally quantified conjuncts at concrete
values. -/
theorem c7_rem_suppresses_quote_toggle_witness :
    zxs_next_in_rem 0xEA false = true ∧
    zxs_next_in_rem 0x41 true = true ∧
    zxs_next_in_quotes 0x22 true true = true :=
  ⟨c7_rem_suppresses_quote_toggle.1 false,
   c7_rem_suppresses_quote_toggle.2.1 0x41,
   c7_rem_suppresses_quote_toggle.2.2.1 true⟩

/-- Claim C8 counterexample: the claim calls the UDG table a 5-entry
table while asserting that the glyph emitted for a UDG byte is the entry
at index `byte - 0x90`.  The table in the source has 21 entries, and the
concrete UDG byte `0x9F` is decoded through index 15 — impossible for a
5-entry table. -/
theorem c8_udg_table_has_21_entries :
    ZXS_UDG_CHARS.length ≠ 5 ∧
    zxs_fprint_basic_line [0x9F] = some (0, (ZXS_UDG_CHARS.getD 15 "").toList) ∧
    ¬ (15 : Nat) < 5 :=
  ⟨by decide, by decide, by decide⟩

/-- Claim C8 amended (`21-entry` in place of `5-entry`): a byte at or
above `0x90` is decoded as a UDG glyph exactly when it is below the
context-dependent boundary — `0xA5` inside quotes, `0xA3` outside — and
the glyph emitted is the entry at index `byte - 0x90` of the 21-entry UDG
table; at or above the boundary the byte takes the keyword branch (the
C's `keyword` pointer is set).  The closed conjuncts pin down the
boundary bytes `0xA3`/`0xA4` in and out of quotes and `0xA5` in
quotes. -/
theorem c8_udg_boundary_and_table :
    (∀ (b : BYTE) (rest : List BYTE) (q : Bool) (lc : Nat), 0x90 ≤ b.val →
      (b.val < (if q then 0xA5 else 0xA3) →
        ∃ s, ZXS_UDG_CHARS.get? (b.val - 0x90) = some s ∧
          zxs_basic_line_step b.val rest q lc = some (s.toList, none, 0)) ∧
      ((if q then 0xA5 else 0xA3) ≤ b.val →
        ∃ out kw, zxs_basic_line_step b.val rest q lc = some (out, some kw, 0))) ∧
    ZXS_UDG_CHARS.length = 21 ∧
    zxs_basic_line_loop 1 [0xA3] true false 0 = some "\x7bT\x7d".toList ∧
    zxs_basic_line_loop 1 [0xA4] true false 0 = some "\x7bU\x7d".toList ∧
    zxs_basic_line_loop 1 [0xA5] true false 0 = some "RND".toList ∧
    zxs_basic_line_loop 1 [0xA3] false false 0 = some " SPECTRUM ".toList ∧
    zxs_basic_line_loop 1 [0xA4] false false 0 = some " PLAY ".toList := by
  refine ⟨?_, rfl, by decide, by decide, by decide, by decide, by decide⟩
  intro b rest q lc h90
  have hstart : ZXS_UDG_CHARS_START = 0x90 := rfl
  constructor
  · intro hlt
    have hb2 : b.val < 0xA5 := by cases q <;> simp at hlt <;> omega
    have hlt21 : b.val - ZXS_UDG_CHARS_START < ZXS_UDG_CHARS.length := by
      rw [ZXS_UDG_CHARS_length, hstart]; omega
    refine ⟨ZXS_UDG_CHARS.get ⟨b.val - 0x90, by rw [← hstart]; exact hlt21⟩,
      by rw [← hstart] at *; exact List.get?_eq_get hlt21, ?_⟩
    unfold zxs_basic_line_step
    rw [if_neg (by omega), if_neg (by omega), if_neg (by omega), if_pos hlt]
    rw [List.get?_eq_get hlt21]
    rfl
  · intro hge
    have hb3 : 0xA3 ≤ b.val := by cases q <;> simp at hge <;> omega
    have hlt93 : b.val - ZXS_KEYWORDS_START < ZXS_KEYWORDS.length := by
      rw [ZXS_KEYWORDS_length]
      have := b.isLt
      unfold ZXS_KEYWORDS_START
      omega
    unfold zxs_basic_line_step
    rw [if_neg (by omega), if_neg (by omega), if_neg (by omega),
        if_neg (by omega)]
    rw [List.get?_eq_get hlt93]
    exact ⟨_, _, rfl⟩

/-- Claim C8 witness: the UDG branch of the amended statement at the
concrete byte `0x9F` outside quotes. -/
theorem c8_udg_boundary_and_table_witness :
    ∃ s, ZXS_UDG_CHARS.get? ((0x9F : BYTE).val - 0x90) = some s ∧
      zxs_basic_line_step (0x9F : BYTE).val [] false 0 = some (s.toList, none, 0) :=
  (c8_udg_boundary_and_table.1 0x9F [] false 0 (by decide)).1 (by decide)

/-- Claim C9 counterexample: the claim says a control code whose declared
argument bytes run past the end of the line payload is a decode error.
The C instead reads missing argument bytes as `0` through its bounds
guards and succeeds: the 1-byte line `10` (INK, one declared argument,
zero provided) returns error code 0 with output `INK 0`. -/
theorem c9_truncated_control_arg_is_not_an_error :
    zxs_fprint_basic_line [0x10] = some (0, "\x7bINK 0\x7d".toList) := by
  decide

/-- Claim C9 amended: `zxs_fprint_basic_line` never signals an error for
any byte content (with a valid output file its error code is always 0):
unknown and reserved bytes are rendered via their table entry or literal
form, and control-code argument positions beyond the end of the payload
are read as the value 0 via the bounds guards — truncation included, no
structural malformation is ever reported by the line decoder. -/
theorem c9_line_decoder_always_succeeds (data : List BYTE) :
    ∃ s, zxs_fprint_basic_line data = some (0, s) :=
  zxs_fprint_basic_line_eq data

/-- Claim C9 witness: the amended statement at a concrete payload whose
final byte is an AT control code missing both arguments. -/
theorem c9_line_decoder_always_succeeds_witness :
    ∃ s, zxs_fprint_basic_line [0x41, 0x16] = some (0, s) :=
  c9_line_decoder_always_succeeds [0x41, 0x16]

/-- Claim C10 (confirmed): the line decoder is total and in-bounds for
every buffer and byte sequence: the control table has 32 entries, the
graphics table 16, the UDG table 21, the keyword table 93, every table
access of the loop is checked (a `none` would mean an out-of-range
index) and never fails, and missing control argument bytes are read as 0
through the explicit guards rather than out of bounds. -/
theorem c10_line_decoder_total_and_inbounds :
    ZXS_CTRL_CHARS.length = 32 ∧ ZXS_GRAPH_CHARS.length = 16 ∧
    ZXS_UDG_CHARS.length = 21 ∧ ZXS_KEYWORDS.length = 93 ∧
    (∀ (data : List BYTE) (q r : Bool) (lc : Nat),
      (zxs_basic_line_loop data.length data q r lc).isSome) ∧
    (∀ data : List BYTE, (zxs_fprint_basic_line data).isSome) := by
  refine ⟨rfl, rfl, rfl, rfl, ?_, ?_⟩
  · intro data q r lc
    exact zxs_basic_line_loop_isSome data.length data q r lc le_rfl
  · intro data
    obtain ⟨s, hs⟩ := zxs_fprint_basic_line_eq data
    rw [hs]
    rfl

/-- Claim C10 witness: totality at a concrete buffer exercising the
control, ASCII, copyright, graphics, UDG and keyword branches. -/
theorem c10_line_decoder_total_and_inbounds_witness :
    (zxs_basic_line_loop ([0x10, 0x41, 0x7F, 0x85, 0x9A, 0xFF] : List BYTE).length
      [0x10, 0x41, 0x7F, 0x85, 0x9A, 0xFF] false false 0).isSome ∧
    (zxs_fprint_basic_line [0x10, 0x41, 0x7F, 0x85, 0x9A, 0xFF]).isSome :=
  ⟨c10_line_decoder_total_and_inbounds.2.2.2.2.1 [0x10, 0x41, 0x7F, 0x85, 0x9A, 0xFF] false false 0,
   c10_line_decoder_total_and_inbounds.2.2.2.2.2 [0x10, 0x41, 0x7F, 0x85, 0x9A, 0xFF]⟩
